import Mathlib

/-!
Shallow embedding of the Living Synthesizer core in Lean 4.

The embedding covers:
* the smoothing engine of src/wind_smoother.py (class WindSmoother),
* the ramp controller of examples/intensity_signal_to_synth.py
  (class SmoothRampController),
* the line-parsing step of src/monitor.py (WS2000Monitor.start_monitoring).

Python floats are embedded as rationals. The one transcendental the source
uses, numpy exp, is abstracted as an explicit function parameter gexp; the
theorems that depend on properties of exp take them as hypotheses that the
real exponential satisfies (positivity, value one at zero). Division in
the rationals is total with x / 0 = 0; the two divisions of the source that
Python would turn into a ZeroDivisionError are either modelled explicitly
with Option (get_normalized_value, which divides by max_wind_mph) or occur
at arguments provably nonzero in every reachable state (the interpolation
step quotient, reached only when current_step < interpolation_steps while
response_speed is kept inside the interval from 1/10 to 1 by every setter).
-/

namespace LivingSynth

/-- Python int() truncates toward zero; on the nonnegative rationals it is
the floor. -/
def pyInt (q : ℚ) : ℤ := if q < 0 then -⌊-q⌋ else ⌊q⌋

/-- Appending to a collections.deque with maxlen m: the new element goes to
the right and elements are evicted from the left until the length is at
most m. -/
def dequeAppend (m : ℕ) (xs : List ℚ) (x : ℚ) : List ℚ :=
  (xs ++ [x]).drop (xs.length + 1 - m)

/-- numpy mean of a list of rationals. The source only evaluates it on
nonempty buffers. -/
def listMean (xs : List ℚ) : ℚ := xs.sum / (xs.length : ℚ)

/-- State of src/wind_smoother.py class WindSmoother. The field
buffer_maxlen records the maxlen the deque was created with in the
constructor; the deque object is never recreated afterwards, so this bound
is fixed for the life of the instance, while the buffer_size attribute is
freely reassigned by the profile setters. -/
structure WindSmoother where
  buffer_size : ℤ
  max_wind_mph : ℚ
  interpolation_steps : ℤ
  smoothing_type : String
  response_speed : ℚ
  wind_buffer : List ℚ
  buffer_maxlen : ℕ
  last_value : ℚ
  target_value : ℚ
  current_step : ℤ
  deriving DecidableEq

/-- WindSmoother.__init__: stores the parameters, clamps response_speed to
the interval from 1/10 to 1, creates the deque with maxlen buffer_size and
zero-initialises the interpolation state. -/
def mkWindSmoother (buffer_size : ℕ) (max_wind_mph : ℚ) (interpolation_steps : ℤ)
    (smoothing_type : String) (response_speed : ℚ) : WindSmoother :=
  { buffer_size := (buffer_size : ℤ)
    max_wind_mph := max_wind_mph
    interpolation_steps := interpolation_steps
    smoothing_type := smoothing_type
    response_speed := max (1/10) (min 1 response_speed)
    wind_buffer := []
    buffer_maxlen := buffer_size
    last_value := 0
    target_value := 0
    current_step := 0 }

/-- The dictionary self.smoothing_profiles: buffer_size, then
interpolation_steps, then response_speed. -/
def profileParams : String → Option (ℤ × ℤ × ℚ)
  | "responsive" => some (3, 50, 8/10)
  | "balanced" => some (8, 100, 5/10)
  | "smooth" => some (15, 200, 3/10)
  | "ambient" => some (20, 300, 2/10)
  | _ => none

/-- The while loop of set_smoothing_profile: popleft until the length is at
most the (positive) new buffer_size. -/
def trimFront (bsize : ℤ) (xs : List ℚ) : List ℚ :=
  xs.drop ((xs.length : ℤ) - bsize).toNat

/-- WindSmoother.set_smoothing_profile: on a known name, overwrite
buffer_size, interpolation_steps and response_speed and pop old samples
from the left until the buffer fits the new buffer_size; on an unknown
name, print the available profiles and change nothing. The boolean records
whether the name was recognised. -/
def set_smoothing_profile (name : String) (s : WindSmoother) : WindSmoother × Bool :=
  match profileParams name with
  | some (bs, steps, resp) =>
      ({ s with
          buffer_size := bs
          interpolation_steps := steps
          response_speed := resp
          wind_buffer := trimFront bs s.wind_buffer }, true)
  | none => (s, false)

/-- WindSmoother.set_custom_parameters: each provided field overwrites the
stored one; response_speed is clamped to the interval from 1/10 to 1; the
buffer is not touched. -/
def set_custom_parameters (bs steps : Option ℤ) (resp : Option ℚ)
    (ty : Option String) (s : WindSmoother) : WindSmoother :=
  let s := match bs with
    | some b => { s with buffer_size := b }
    | none => s
  let s := match steps with
    | some t => { s with interpolation_steps := t }
    | none => s
  let s := match resp with
    | some r => { s with response_speed := max (1/10) (min 1 r) }
    | none => s
  match ty with
  | some t => { s with smoothing_type := t }
  | none => s

/-- The raw gaussian weights of add_wind_reading for a buffer of length n:
for index i the weight is exp of the negative half square of
(i - n/2) / (n/4). The exponential is the abstract parameter gexp. -/
def gaussWeights (gexp : ℚ → ℚ) (n : ℕ) : List ℚ :=
  (List.range n).map (fun (i : ℕ) => gexp (-(1/2) * (((i : ℚ) - (n : ℚ)/2) / ((n : ℚ)/4))^2))

/-- numpy average of values against weights: the weighted sum divided by
the sum of the weights. -/
def npAverage (ws xs : List ℚ) : ℚ :=
  (List.zipWith (· * ·) ws xs).sum / ws.sum

/-- The gaussian branch of add_wind_reading: normalise the raw weights by
their sum, then take the numpy weighted average of the buffer. -/
def gaussTarget (gexp : ℚ → ℚ) (xs : List ℚ) : ℚ :=
  let ws := gaussWeights gexp xs.length
  let wn := ws.map (fun w => w / ws.sum)
  npAverage wn xs

/-- WindSmoother.get_smoothed_value. Returns the produced value together
with the updated state. If current_step has reached interpolation_steps the
target is returned and nothing changes; otherwise the progress quotient is
shaped by the active smoothing curve, clamped to the unit interval, used to
interpolate between last_value and target_value, and current_step advances
by one, saturating at interpolation_steps. -/
def get_smoothed_value (gexp : ℚ → ℚ) (s : WindSmoother) : ℚ × WindSmoother :=
  if s.interpolation_steps ≤ s.current_step then (s.target_value, s)
  else
    let adjusted : ℤ := pyInt ((s.interpolation_steps : ℚ) / s.response_speed)
    let progress0 : ℚ := (s.current_step : ℚ) / (adjusted : ℚ)
    let progress1 : ℚ :=
      if s.smoothing_type = "exponential" then 1 - (1 - progress0)^2
      else if s.smoothing_type = "gaussian" then 1 - gexp (-4 * progress0)
      else progress0
    let progress : ℚ := max 0 (min 1 progress1)
    let smoothed : ℚ := s.last_value + (s.target_value - s.last_value) * progress
    (smoothed, { s with current_step := min (s.current_step + 1) s.interpolation_steps })

/-- WindSmoother.add_wind_reading: append the sample, upper-clamped at
max_wind_mph, to the deque; recompute target_value according to the
smoothing type (note that the exponential branch folds in the raw,
unclamped sample); set last_value to the smoothed value of the state that
already carries the new buffer and target; reset current_step to zero. -/
def add_wind_reading (gexp : ℚ → ℚ) (wind_mph : ℚ) (s : WindSmoother) : WindSmoother :=
  let buf := dequeAppend s.buffer_maxlen s.wind_buffer (min wind_mph s.max_wind_mph)
  let target : ℚ :=
    if s.smoothing_type = "gaussian" then gaussTarget gexp buf
    else if s.smoothing_type = "exponential" then
      let alpha : ℚ := 2 / ((buf.length : ℚ) + 1)
      alpha * wind_mph + (1 - alpha) * s.target_value
    else listMean buf
  let s1 := { s with wind_buffer := buf, target_value := target }
  let vs := get_smoothed_value gexp s1
  { vs.2 with last_value := vs.1, current_step := 0 }

/-- WindSmoother.get_normalized_value: the smoothed value divided by
max_wind_mph. The state mutation of the inner get_smoothed_value call
happens first; the division then raises ZeroDivisionError in Python when
max_wind_mph is zero, modelled as none. -/
def get_normalized_value (gexp : ℚ → ℚ) (s : WindSmoother) : Option ℚ × WindSmoother :=
  let vs := get_smoothed_value gexp s
  (if s.max_wind_mph = 0 then none else some (vs.1 / s.max_wind_mph), vs.2)

/-- A concrete computable stand-in for the real exponential, used only to
instantiate witnesses: it is positive everywhere and equals one at zero,
which are the only properties of exp the theorems assume. -/
def gexpModel (x : ℚ) : ℚ := if x < 0 then 1 / (1 - x) else 1 + x

/-- The operations a client can perform on a WindSmoother after
construction, as exercised by the monitoring loop and the demos. -/
inductive Op where
  | add (x : ℚ)
  | getSmoothed
  | getNormalized
  | setProfile (name : String)
  | setCustom (bs steps : Option ℤ) (resp : Option ℚ) (ty : Option String)

/-- One operation applied to the state (returned values discarded). -/
def runOp (gexp : ℚ → ℚ) : Op → WindSmoother → WindSmoother
  | Op.add x, s => add_wind_reading gexp x s
  | Op.getSmoothed, s => (get_smoothed_value gexp s).2
  | Op.getNormalized, s => (get_normalized_value gexp s).2
  | Op.setProfile name, s => (set_smoothing_profile name s).1
  | Op.setCustom bs steps resp ty, s => set_custom_parameters bs steps resp ty s

/-- A sequence of operations applied left to right. -/
def runOps (gexp : ℚ → ℚ) : List Op → WindSmoother → WindSmoother
  | [], s => s
  | op :: rest, s => runOps gexp rest (runOp gexp op s)

/-- Guard on an operation: every sample added lies between zero and the
bound M. -/
def opOK (M : ℚ) : Op → Prop
  | Op.add x => 0 ≤ x ∧ x ≤ M
  | _ => True

/-- State of examples/intensity_signal_to_synth.py class
SmoothRampController. Wall-clock instants are explicit rational
parameters of the operations; ramp_start_time is None until the first
accepted target. -/
structure RampState where
  ramp_duration : ℚ
  update_rate : ℚ
  current_value : ℚ
  target_value : ℚ
  start_value : ℚ
  ramp_start_time : Option ℚ
  is_ramping : Bool
  deriving DecidableEq

/-- SmoothRampController.__init__ with the given duration and update
rate. -/
def mkRampController (ramp_duration update_rate : ℚ) : RampState :=
  { ramp_duration := ramp_duration
    update_rate := update_rate
    current_value := 0
    target_value := 0
    start_value := 0
    ramp_start_time := none
    is_ramping := false }

/-- SmoothRampController.set_target called at wall-clock instant now: only
when the requested change against the stored target exceeds 1/10 does it
record start, target and start time and raise the ramping flag; otherwise
the whole state is untouched. -/
def set_target (now new_target : ℚ) (s : RampState) : RampState :=
  if 1/10 < |new_target - s.target_value| then
    { s with
        start_value := s.current_value
        target_value := new_target
        ramp_start_time := some now
        is_ramping := true }
  else s

/-- Python truthiness of the ramp_start_time attribute: None and 0.0 are
falsy. -/
def pyTruthyTime : Option ℚ → Bool
  | none => false
  | some t => decide (t ≠ 0)

/-- One iteration of the body of SmoothRampController._ramp_loop at
wall-clock instant now: when ramping with a truthy start time, progress is
elapsed over duration capped at one, eased in-out, and current_value moves
on the eased segment; at full progress current_value snaps to the target
and the ramping flag clears. -/
def ramp_update (now : ℚ) (s : RampState) : RampState :=
  if s.is_ramping && pyTruthyTime s.ramp_start_time then
    match s.ramp_start_time with
    | none => s
    | some t0 =>
      let elapsed := now - t0
      let progress := min (elapsed / s.ramp_duration) 1
      let ease : ℚ :=
        if progress < 1/2 then 2 * progress * progress
        else 1 - 2 * (1 - progress) * (1 - progress)
      let cur := s.start_value + (s.target_value - s.start_value) * ease
      if 1 ≤ progress then
        { s with current_value := s.target_value, is_ramping := false }
      else
        { s with current_value := cur }
  else s

/-- The fields of a decoded JSON object line that
WS2000Monitor.start_monitoring reads, each possibly absent. -/
structure JsonObj where
  model : Option String
  wind_avg_m_s : Option ℚ
  wind_dir_deg : Option ℚ
  temperature_C : Option ℚ
  humidity : Option ℚ
  deriving DecidableEq

/-- One line of decoder output: either not valid JSON at all, or a JSON
object with the fields above. -/
inductive DecoderLine where
  | malformed
  | obj (o : JsonObj)

/-- A parsed reading as assembled by the monitoring loop before it is fed
to the smoother and yielded. -/
structure Reading where
  wind_speed : ℚ
  wind_direction : ℚ
  temperature : ℚ
  humidity : ℚ
  deriving DecidableEq

/-- The sensor model string the monitor filters on. -/
def expectedModel : String := "Fineoffset-WH24"

/-- The meters-per-second to miles-per-hour factor 2.23694 of the
monitoring loop. -/
def msToMph : ℚ := 223694 / 100000

/-- The parse-and-filter step of WS2000Monitor.start_monitoring on one
line: malformed lines are skipped (JSONDecodeError is caught and the loop
continues); an object is accepted exactly when its model field equals the
expected model string, in which case wind speed is converted from
meters per second to miles per hour and the remaining fields are taken
verbatim, each defaulting to zero when absent. -/
def parseLine : DecoderLine → Option Reading
  | DecoderLine.malformed => none
  | DecoderLine.obj o =>
    if o.model = some expectedModel then
      some { wind_speed := o.wind_avg_m_s.getD 0 * msToMph
             wind_direction := o.wind_dir_deg.getD 0
             temperature := o.temperature_C.getD 0
             humidity := o.humidity.getD 0 }
    else none

/-- n successive calls of get_smoothed_value, keeping only the state. -/
def stepN (gexp : ℚ → ℚ) : ℕ → WindSmoother → WindSmoother
  | 0, s => s
  | n + 1, s => (get_smoothed_value gexp (stepN gexp n s)).2

/-- All samples in the buffer, the last value and the target value lie
between zero and the normalisation ceiling. -/
def Inv (s : WindSmoother) : Prop :=
  (∀ x ∈ s.wind_buffer, 0 ≤ x ∧ x ≤ s.max_wind_mph) ∧
  (0 ≤ s.last_value ∧ s.last_value ≤ s.max_wind_mph) ∧
  (0 ≤ s.target_value ∧ s.target_value ≤ s.max_wind_mph)

/-! ### Generic arithmetic and list lemmas -/

theorem lerp_bounds {a b p M : ℚ} (ha0 : 0 ≤ a) (haM : a ≤ M) (hb0 : 0 ≤ b) (hbM : b ≤ M)
    (hp0 : 0 ≤ p) (hp1 : p ≤ 1) : 0 ≤ a + (b - a) * p ∧ a + (b - a) * p ≤ M := by
  constructor <;> nlinarith

theorem lerp_between {a b p : ℚ} (hp0 : 0 ≤ p) (hp1 : p ≤ 1) :
    min a b ≤ a + (b - a) * p ∧ a + (b - a) * p ≤ max a b := by
  rcases le_total a b with h | h
  · rw [min_eq_left h, max_eq_right h]
    constructor <;> nlinarith
  · rw [min_eq_right h, max_eq_left h]
    constructor <;> nlinarith

theorem clamp01 (q : ℚ) : 0 ≤ max 0 (min 1 q) ∧ max 0 (min 1 q) ≤ 1 := by
  refine ⟨le_max_left 0 _, max_le ?_ (min_le_left 1 q)⟩
  norm_num

theorem list_sum_nonneg {xs : List ℚ} (h : ∀ x ∈ xs, 0 ≤ x) : 0 ≤ xs.sum := by
  induction xs with
  | nil => simp
  | cons y ys ih =>
    simp only [List.sum_cons]
    have hy := h y (List.mem_cons_self y ys)
    have hys := ih (fun x hx => h x (List.mem_cons_of_mem y hx))
    linarith

theorem list_sum_pos {xs : List ℚ} (hne : xs ≠ []) (h : ∀ x ∈ xs, 0 < x) : 0 < xs.sum := by
  cases xs with
  | nil => exact absurd rfl hne
  | cons y ys =>
    simp only [List.sum_cons]
    have hy := h y (List.mem_cons_self y ys)
    have hys : 0 ≤ ys.sum :=
      list_sum_nonneg (fun x hx => le_of_lt (h x (List.mem_cons_of_mem y hx)))
    linarith

theorem list_sum_le_length_mul {xs : List ℚ} {M : ℚ} (h : ∀ x ∈ xs, x ≤ M) :
    xs.sum ≤ (xs.length : ℚ) * M := by
  induction xs with
  | nil => simp
  | cons y ys ih =>
    simp only [List.sum_cons, List.length_cons]
    have hy := h y (List.mem_cons_self y ys)
    have hys := ih (fun x hx => h x (List.mem_cons_of_mem y hx))
    push_cast
    nlinarith

theorem listMean_bounds {xs : List ℚ} {M : ℚ} (hne : xs ≠ [])
    (h : ∀ x ∈ xs, 0 ≤ x ∧ x ≤ M) : 0 ≤ listMean xs ∧ listMean xs ≤ M := by
  have hlen : 0 < (xs.length : ℚ) := by
    have : xs.length ≠ 0 := fun hl => hne (List.length_eq_zero.mp hl)
    positivity
  have hs0 : 0 ≤ xs.sum := list_sum_nonneg (fun x hx => (h x hx).1)
  have hsM : xs.sum ≤ (xs.length : ℚ) * M := list_sum_le_length_mul (fun x hx => (h x hx).2)
  unfold listMean
  constructor
  · positivity
  · rw [div_le_iff₀ hlen]
    linarith [hsM]

theorem zip_mul_sum_nonneg {ws xs : List ℚ} (hw : ∀ w ∈ ws, 0 ≤ w)
    (hx : ∀ x ∈ xs, 0 ≤ x) : 0 ≤ (List.zipWith (· * ·) ws xs).sum := by
  induction ws generalizing xs with
  | nil => simp
  | cons w ws ih =>
    cases xs with
    | nil => simp
    | cons x xs =>
      simp only [List.zipWith_cons_cons, List.sum_cons]
      have h1 : 0 ≤ w * x :=
        mul_nonneg (hw w (List.mem_cons_self _ _)) (hx x (List.mem_cons_self _ _))
      have h2 := ih (fun a ha => hw a (List.mem_cons_of_mem _ ha))
        (fun a ha => hx a (List.mem_cons_of_mem _ ha))
      linarith

theorem zip_mul_sum_le {ws xs : List ℚ} {M : ℚ} (hlen : ws.length = xs.length)
    (hw : ∀ w ∈ ws, 0 ≤ w) (hx : ∀ x ∈ xs, x ≤ M) :
    (List.zipWith (· * ·) ws xs).sum ≤ M * ws.sum := by
  induction ws generalizing xs with
  | nil => simp
  | cons w ws ih =>
    cases xs with
    | nil => simp at hlen
    | cons x xs =>
      simp only [List.zipWith_cons_cons, List.sum_cons, List.length_cons] at hlen ⊢
      have h1 : w * x ≤ w * M :=
        mul_le_mul_of_nonneg_left (hx x (List.mem_cons_self _ _)) (hw w (List.mem_cons_self _ _))
      have h2 := ih (Nat.succ_injective hlen) (fun a ha => hw a (List.mem_cons_of_mem _ ha))
        (fun a ha => hx a (List.mem_cons_of_mem _ ha))
      nlinarith

theorem npAverage_bounds {ws xs : List ℚ} {M : ℚ} (hlen : ws.length = xs.length)
    (hne : ws ≠ []) (hw : ∀ w ∈ ws, 0 < w) (hx : ∀ x ∈ xs, 0 ≤ x ∧ x ≤ M) :
    0 ≤ npAverage ws xs ∧ npAverage ws xs ≤ M := by
  have hS : 0 < ws.sum := list_sum_pos hne hw
  have h0 : 0 ≤ (List.zipWith (· * ·) ws xs).sum :=
    zip_mul_sum_nonneg (fun w h => le_of_lt (hw w h)) (fun x h => (hx x h).1)
  have h1 : (List.zipWith (· * ·) ws xs).sum ≤ M * ws.sum :=
    zip_mul_sum_le hlen (fun w h => le_of_lt (hw w h)) (fun x h => (hx x h).2)
  unfold npAverage
  constructor
  · positivity
  · rw [div_le_iff₀ hS]
    linarith

theorem gaussTarget_bounds {gexp : ℚ → ℚ} (hg : ∀ q, 0 < gexp q) {xs : List ℚ} {M : ℚ}
    (hne : xs ≠ []) (hx : ∀ x ∈ xs, 0 ≤ x ∧ x ≤ M) :
    0 ≤ gaussTarget gexp xs ∧ gaussTarget gexp xs ≤ M := by
  unfold gaussTarget
  set ws := gaussWeights gexp xs.length with hws
  have hwlen : ws.length = xs.length := by
    simp only [hws, gaussWeights, List.length_map, List.length_range]
  have hwpos : ∀ w ∈ ws, 0 < w := by
    intro w hw
    rw [hws] at hw
    unfold gaussWeights at hw
    obtain ⟨i, _, rfl⟩ := List.mem_map.mp hw
    exact hg _
  have hwne : ws ≠ [] := by
    intro h
    apply hne
    have := hwlen
    rw [h] at this
    exact List.length_eq_zero.mp this.symm
  have hSpos : 0 < ws.sum := list_sum_pos hwne hwpos
  apply npAverage_bounds
  · simp [hwlen]
  · intro h
    exact hwne (List.map_eq_nil_iff.mp h)
  · intro w hw
    obtain ⟨w0, hw0, rfl⟩ := List.mem_map.mp hw
    exact div_pos (hwpos w0 hw0) hSpos
  · exact hx

/-! ### Deque lemmas -/

theorem dequeAppend_mem {m : ℕ} {xs : List ℚ} {x y : ℚ}
    (hy : y ∈ dequeAppend m xs x) : y ∈ xs ∨ y = x := by
  unfold dequeAppend at hy
  have hy2 := List.drop_subset _ _ hy
  rcases List.mem_append.mp hy2 with h | h
  · exact Or.inl h
  · exact Or.inr (List.mem_singleton.mp h)

theorem dequeAppend_ne_nil {m : ℕ} (hm : 1 ≤ m) (xs : List ℚ) (x : ℚ) :
    dequeAppend m xs x ≠ [] := by
  unfold dequeAppend
  intro h
  have hlen := congrArg List.length h
  rw [List.length_drop, List.length_append] at hlen
  simp at hlen
  omega

theorem dequeAppend_getLast {m : ℕ} (hm : 1 ≤ m) (xs : List ℚ) (x : ℚ) :
    (dequeAppend m xs x).getLast? = some x := by
  unfold dequeAppend
  rw [List.drop_append_eq_append_drop]
  have h0 : xs.length + 1 - m - xs.length = 0 := by omega
  rw [h0, List.drop_zero]
  simp

theorem get_smoothed_snd (gexp : ℚ → ℚ) (s : WindSmoother) :
    (get_smoothed_value gexp s).2 =
      { s with current_step :=
          if s.interpolation_steps ≤ s.current_step then s.current_step
          else min (s.current_step + 1) s.interpolation_steps } := by
  by_cases h : s.interpolation_steps ≤ s.current_step
  · simp [get_smoothed_value, h]
  · simp [get_smoothed_value, h]

theorem get_smoothed_fst_bounds (gexp : ℚ → ℚ) {s : WindSmoother} (h : Inv s) :
    0 ≤ (get_smoothed_value gexp s).1 ∧ (get_smoothed_value gexp s).1 ≤ s.max_wind_mph := by
  obtain ⟨_, ⟨hl0, hlM⟩, ⟨ht0, htM⟩⟩ := h
  by_cases hc : s.interpolation_steps ≤ s.current_step
  · simp only [get_smoothed_value, if_pos hc]
    exact ⟨ht0, htM⟩
  · simp only [get_smoothed_value, if_neg hc]
    exact lerp_bounds hl0 hlM ht0 htM (clamp01 _).1 (clamp01 _).2

theorem get_smoothed_fst_between (gexp : ℚ → ℚ) (s : WindSmoother)
    (hc : s.current_step < s.interpolation_steps) :
    min s.last_value s.target_value ≤ (get_smoothed_value gexp s).1 ∧
    (get_smoothed_value gexp s).1 ≤ max s.last_value s.target_value := by
  simp only [get_smoothed_value, if_neg (not_le.mpr hc)]
  exact lerp_between (clamp01 _).1 (clamp01 _).2

theorem get_smoothed_fst_terminal (gexp : ℚ → ℚ) (s : WindSmoother)
    (hc : s.interpolation_steps ≤ s.current_step) :
    (get_smoothed_value gexp s).1 = s.target_value := by
  simp [get_smoothed_value, hc]

theorem Inv_get_smoothed (gexp : ℚ → ℚ) {s : WindSmoother} (h : Inv s) :
    Inv (get_smoothed_value gexp s).2 := by
  rw [get_smoothed_snd]
  exact h

theorem Inv_add {gexp : ℚ → ℚ} (hg : ∀ q, 0 < gexp q) {s : WindSmoother} {x : ℚ}
    (hml : 1 ≤ s.buffer_maxlen) (hM : 0 ≤ s.max_wind_mph)
    (hx0 : 0 ≤ x) (hxM : x ≤ s.max_wind_mph) (h : Inv s) :
    Inv (add_wind_reading gexp x s) := by
  obtain ⟨hbuf, hl, ht⟩ := h
  have hnew : 0 ≤ min x s.max_wind_mph ∧ min x s.max_wind_mph ≤ s.max_wind_mph :=
    ⟨le_min hx0 hM, min_le_right _ _⟩
  have hbuf' : ∀ y ∈ dequeAppend s.buffer_maxlen s.wind_buffer (min x s.max_wind_mph),
      0 ≤ y ∧ y ≤ s.max_wind_mph := by
    intro y hy
    rcases dequeAppend_mem hy with hy' | rfl
    · exact hbuf y hy'
    · exact hnew
  have hne : dequeAppend s.buffer_maxlen s.wind_buffer (min x s.max_wind_mph) ≠ [] :=
    dequeAppend_ne_nil hml _ _
  have hlen1 : 1 ≤ (dequeAppend s.buffer_maxlen s.wind_buffer (min x s.max_wind_mph)).length :=
    Nat.one_le_iff_ne_zero.mpr (fun h0 => hne (List.length_eq_zero.mp h0))
  unfold add_wind_reading
  simp only
  set buf := dequeAppend s.buffer_maxlen s.wind_buffer (min x s.max_wind_mph) with hbufdef
  set target : ℚ :=
    (if s.smoothing_type = "gaussian" then gaussTarget gexp buf
     else if s.smoothing_type = "exponential" then
       (2 / ((buf.length : ℚ) + 1)) * x + (1 - 2 / ((buf.length : ℚ) + 1)) * s.target_value
     else listMean buf) with htardef
  have htar : 0 ≤ target ∧ target ≤ s.max_wind_mph := by
    rw [htardef]
    by_cases hty1 : s.smoothing_type = "gaussian"
    · rw [if_pos hty1]
      exact gaussTarget_bounds hg hne hbuf'
    · rw [if_neg hty1]
      by_cases hty2 : s.smoothing_type = "exponential"
      · rw [if_pos hty2]
        have ha0 : 0 < 2 / ((buf.length : ℚ) + 1) := by positivity
        have ha1 : 2 / ((buf.length : ℚ) + 1) ≤ 1 := by
          rw [div_le_one (by positivity)]
          have : (1 : ℚ) ≤ (buf.length : ℚ) := by exact_mod_cast hlen1
          linarith
        constructor <;> nlinarith [ht.1, ht.2]
      · rw [if_neg hty2]
        exact listMean_bounds hne hbuf'
  set s1 : WindSmoother := { s with wind_buffer := buf, target_value := target } with hs1def
  have hInv1 : Inv s1 := by
    refine ⟨?_, ?_, ?_⟩
    · simpa [hs1def] using hbuf'
    · simpa [hs1def] using hl
    · simpa [hs1def] using htar
  have hval := get_smoothed_fst_bounds gexp hInv1
  have hsnd := get_smoothed_snd gexp s1
  refine ⟨?_, ?_, ?_⟩
  · intro y hy
    rw [hsnd] at hy ⊢
    simpa [hs1def] using hbuf' y (by simpa [hs1def] using hy)
  · rw [hsnd]
    simpa [hs1def] using hval
  · rw [hsnd]
    simpa [hs1def] using htar

theorem set_profile_known (s : WindSmoother) (name : String) (bs st : ℤ) (rs : ℚ)
    (h : profileParams name = some (bs, st, rs)) :
    set_smoothing_profile name s =
      ({ s with
          buffer_size := bs
          interpolation_steps := st
          response_speed := rs
          wind_buffer := trimFront bs s.wind_buffer }, true) := by
  unfold set_smoothing_profile
  rw [h]

theorem set_profile_unknown (s : WindSmoother) (name : String)
    (h : profileParams name = none) :
    set_smoothing_profile name s = (s, false) := by
  unfold set_smoothing_profile
  rw [h]

theorem set_custom_untouched (bs st : Option ℤ) (r : Option ℚ) (t : Option String)
    (s : WindSmoother) :
    (set_custom_parameters bs st r t s).wind_buffer = s.wind_buffer ∧
    (set_custom_parameters bs st r t s).max_wind_mph = s.max_wind_mph ∧
    (set_custom_parameters bs st r t s).buffer_maxlen = s.buffer_maxlen ∧
    (set_custom_parameters bs st r t s).last_value = s.last_value ∧
    (set_custom_parameters bs st r t s).target_value = s.target_value ∧
    (set_custom_parameters bs st r t s).current_step = s.current_step := by
  unfold set_custom_parameters
  cases bs <;> cases st <;> cases r <;> cases t <;> simp

theorem Inv_set_profile (name : String) {s : WindSmoother} (h : Inv s) :
    Inv (set_smoothing_profile name s).1 := by
  cases hp : profileParams name with
  | none => rw [set_profile_unknown s name hp]; exact h
  | some v =>
    obtain ⟨bs, st, rs⟩ := v
    rw [set_profile_known s name bs st rs hp]
    obtain ⟨hbuf, hl, ht⟩ := h
    refine ⟨?_, hl, ht⟩
    intro y hy
    exact hbuf y (List.drop_subset _ _ hy)

theorem Inv_set_custom (bs st : Option ℤ) (r : Option ℚ) (t : Option String)
    {s : WindSmoother} (h : Inv s) :
    Inv (set_custom_parameters bs st r t s) := by
  obtain ⟨h1, h2, h3, h4, h5, h6⟩ := set_custom_untouched bs st r t s
  obtain ⟨hbuf, hl, ht⟩ := h
  unfold Inv
  rw [h1, h2, h4, h5]
  exact ⟨hbuf, hl, ht⟩

theorem runOp_const (gexp : ℚ → ℚ) (op : Op) (s : WindSmoother) :
    (runOp gexp op s).max_wind_mph = s.max_wind_mph ∧
    (runOp gexp op s).buffer_maxlen = s.buffer_maxlen := by
  cases op with
  | add x =>
    simp only [runOp]
    unfold add_wind_reading
    simp only
    rw [get_smoothed_snd]
    exact ⟨rfl, rfl⟩
  | getSmoothed =>
    simp only [runOp]
    rw [get_smoothed_snd]
    exact ⟨rfl, rfl⟩
  | getNormalized =>
    simp only [runOp]
    unfold get_normalized_value
    simp only
    rw [get_smoothed_snd]
    exact ⟨rfl, rfl⟩
  | setProfile name =>
    simp only [runOp]
    cases hp : profileParams name with
    | none => rw [set_profile_unknown s name hp]; exact ⟨rfl, rfl⟩
    | some v =>
      obtain ⟨bs, st, rs⟩ := v
      rw [set_profile_known s name bs st rs hp]
      exact ⟨rfl, rfl⟩
  | setCustom bs st r t =>
    simp only [runOp]
    obtain ⟨_, h2, h3, _⟩ := set_custom_untouched bs st r t s
    exact ⟨h2, h3⟩

theorem Inv_runOp {gexp : ℚ → ℚ} (hg : ∀ q, 0 < gexp q) {s : WindSmoother} (op : Op)
    (hml : 1 ≤ s.buffer_maxlen) (hM : 0 ≤ s.max_wind_mph)
    (hop : opOK s.max_wind_mph op) (h : Inv s) : Inv (runOp gexp op s) := by
  cases op with
  | add x =>
    have hx : 0 ≤ x ∧ x ≤ s.max_wind_mph := hop
    simp only [runOp]
    exact Inv_add hg hml hM hx.1 hx.2 h
  | getSmoothed =>
    simp only [runOp]
    exact Inv_get_smoothed gexp h
  | getNormalized =>
    simp only [runOp]
    unfold get_normalized_value
    simp only
    exact Inv_get_smoothed gexp h
  | setProfile name =>
    simp only [runOp]
    exact Inv_set_profile name h
  | setCustom bs st r t =>
    simp only [runOp]
    exact Inv_set_custom bs st r t h

theorem Inv_runOps {gexp : ℚ → ℚ} (hg : ∀ q, 0 < gexp q) (ops : List Op)
    {s : WindSmoother} (hml : 1 ≤ s.buffer_maxlen) (hM : 0 ≤ s.max_wind_mph)
    (hops : ∀ op ∈ ops, opOK s.max_wind_mph op) (h : Inv s) :
    Inv (runOps gexp ops s) ∧ (runOps gexp ops s).max_wind_mph = s.max_wind_mph := by
  induction ops generalizing s with
  | nil => exact ⟨h, rfl⟩
  | cons op rest ih =>
    obtain ⟨hconst1, hconst2⟩ := runOp_const gexp op s
    have hstep := Inv_runOp hg op hml hM (hops op (List.mem_cons_self op rest)) h
    have hrec := ih (s := runOp gexp op s)
      (by rw [hconst2]; exact hml)
      (by rw [hconst1]; exact hM)
      (by rw [hconst1]; exact fun o ho => hops o (List.mem_cons_of_mem op ho))
      hstep
    refine ⟨hrec.1, ?_⟩
    rw [runOps, hrec.2, hconst1]

theorem stepN_fields (gexp : ℚ → ℚ) (n : ℕ) (s : WindSmoother) :
    (stepN gexp n s).target_value = s.target_value ∧
    (stepN gexp n s).interpolation_steps = s.interpolation_steps := by
  induction n with
  | zero => exact ⟨rfl, rfl⟩
  | succ k ih =>
    simp only [stepN]
    rw [get_smoothed_snd]
    exact ih

theorem stepN_current (gexp : ℚ → ℚ) (n : ℕ) (s : WindSmoother)
    (h0 : s.current_step = 0) (hst : 0 ≤ s.interpolation_steps) :
    (stepN gexp n s).current_step = min (n : ℤ) s.interpolation_steps := by
  induction n with
  | zero =>
    simp only [stepN, h0, Nat.cast_zero]
    rw [min_eq_left hst]
  | succ k ih =>
    simp only [stepN]
    rw [get_smoothed_snd]
    simp only [(stepN_fields gexp k s).2, ih]
    push_cast
    simp only [min_def]
    split_ifs <;> omega

theorem add_wind_reading_fields (gexp : ℚ → ℚ) (x : ℚ) (s : WindSmoother) :
    (add_wind_reading gexp x s).current_step = 0 ∧
    (add_wind_reading gexp x s).interpolation_steps = s.interpolation_steps ∧
    (add_wind_reading gexp x s).response_speed = s.response_speed ∧
    (add_wind_reading gexp x s).smoothing_type = s.smoothing_type ∧
    (add_wind_reading gexp x s).max_wind_mph = s.max_wind_mph := by
  unfold add_wind_reading
  simp only
  rw [get_smoothed_snd]
  simp

theorem get_smoothed_first_call (gexp : ℚ → ℚ) (hg0 : gexp 0 = 1) {s : WindSmoother}
    (h0 : s.current_step = 0) (hst : 1 ≤ s.interpolation_steps) :
    (get_smoothed_value gexp s).1 = s.last_value := by
  have hc : ¬ s.interpolation_steps ≤ s.current_step := by omega
  simp only [get_smoothed_value, if_neg hc]
  rw [h0]
  push_cast
  rw [zero_div]
  split_ifs with h1 h2 <;> norm_num [hg0]

/-! ### Properties of the concrete exponential stand-in -/

theorem gexpModel_pos (q : ℚ) : 0 < gexpModel q := by
  unfold gexpModel
  split_ifs with h
  · apply div_pos
    · norm_num
    · linarith
  · push_neg at h
    linarith

theorem gexpModel_zero : gexpModel 0 = 1 := by
  norm_num [gexpModel]

/-! ### Claim theorems -/

/-- C1, amended: for a smoother constructed with a positive normalisation
ceiling and a positive buffer capacity, any sequence of operations whose
added samples all lie between zero and the ceiling keeps every value
returned by get_normalized_value inside the unit interval, for every
smoothing type and every profile. The restriction of samples to the ceiling
is forced: the exponential branch folds the raw sample into the target, so
a non-negative sample above the ceiling can push the normalized value
above one. -/
theorem C1_normalized_in_unit_interval (gexp : ℚ → ℚ) (hg : ∀ q, 0 < gexp q)
    (bufsz : ℕ) (hb : 1 ≤ bufsz) (maxw : ℚ) (hm : 0 < maxw) (steps : ℤ)
    (ty : String) (resp : ℚ) (ops : List Op)
    (hops : ∀ op ∈ ops, opOK maxw op) (r : ℚ)
    (hr : (get_normalized_value gexp (runOps gexp ops
            (mkWindSmoother bufsz maxw steps ty resp))).1 = some r) :
    0 ≤ r ∧ r ≤ 1 := by
  have hInv0 : Inv (mkWindSmoother bufsz maxw steps ty resp) := by
    refine ⟨?_, ⟨le_refl 0, hm.le⟩, ⟨le_refl 0, hm.le⟩⟩
    intro x hx
    simp [mkWindSmoother] at hx
  have hmain := Inv_runOps hg ops (s := mkWindSmoother bufsz maxw steps ty resp)
    hb hm.le hops hInv0
  have hmk : (mkWindSmoother bufsz maxw steps ty resp).max_wind_mph = maxw := rfl
  rw [hmk] at hmain
  have hval := get_smoothed_fst_bounds gexp hmain.1
  rw [hmain.2] at hval
  unfold get_normalized_value at hr
  simp only at hr
  rw [if_neg (by rw [hmain.2]; exact ne_of_gt hm)] at hr
  have hr2 := Option.some.inj hr
  subst hr2
  rw [hmain.2]
  constructor
  · exact div_nonneg hval.1 hm.le
  · rw [div_le_one hm]
    exact hval.2

/-- C1 counterexample: with exponential smoothing, a ceiling of 20 and a
single interpolation step, one non-negative sample of 100 makes the second
call of get_normalized_value return 5, which is outside the unit
interval. -/
theorem C1_counterexample :
    (let s0 := mkWindSmoother 10 20 1 "exponential" (1/2)
     let s1 := add_wind_reading gexpModel 100 s0
     let s2 := (get_normalized_value gexpModel s1).2
     (get_normalized_value gexpModel s2).1) = some 5 ∧ ¬ ((5:ℚ) ≤ 1) := by
  refine ⟨?_, by norm_num⟩
  simp [mkWindSmoother, add_wind_reading, get_normalized_value, get_smoothed_value,
    dequeAppend, listMean, pyInt, gexpModel] <;> norm_num

/-- C1 witness: a linear smoother with ceiling 10 and one in-range sample
yields a normalized value of zero, inside the unit interval. -/
theorem C1_witness : (0:ℚ) ≤ 0 ∧ (0:ℚ) ≤ 1 :=
  C1_normalized_in_unit_interval gexpModel gexpModel_pos 3 (by norm_num) 10 (by norm_num)
    150 "linear" (1/2) [Op.add 5]
    (by
      intro op hop
      rw [List.mem_singleton] at hop
      subst hop
      exact ⟨by norm_num, by norm_num⟩)
    0
    (by
      simp [mkWindSmoother, runOps, runOp, add_wind_reading, get_normalized_value,
        get_smoothed_value, dequeAppend, listMean, pyInt, gexpModel] <;> norm_num)

/-- C2, amended: from a state satisfying the step invariant, the invariant
0 at most current_step at most interpolation_steps is preserved by
add_wind_reading, get_smoothed_value and get_normalized_value; the profile
setters preserve the lower bound but can break the upper bound by lowering
interpolation_steps below current_step; the value of get_smoothed_value
lies between last_value and target_value inclusive while current_step is
strictly below interpolation_steps and equals target_value exactly once
current_step has reached interpolation_steps. -/
theorem C2_step_invariant (gexp : ℚ → ℚ) (s : WindSmoother) (x : ℚ)
    (bs st : Option ℤ) (r : Option ℚ) (t : Option String) (name : String)
    (h0 : 0 ≤ s.current_step) (h1 : s.current_step ≤ s.interpolation_steps) :
    (0 ≤ (add_wind_reading gexp x s).current_step ∧
      (add_wind_reading gexp x s).current_step ≤
        (add_wind_reading gexp x s).interpolation_steps) ∧
    (0 ≤ (get_smoothed_value gexp s).2.current_step ∧
      (get_smoothed_value gexp s).2.current_step ≤
        (get_smoothed_value gexp s).2.interpolation_steps) ∧
    (0 ≤ (get_normalized_value gexp s).2.current_step ∧
      (get_normalized_value gexp s).2.current_step ≤
        (get_normalized_value gexp s).2.interpolation_steps) ∧
    0 ≤ (set_smoothing_profile name s).1.current_step ∧
    0 ≤ (set_custom_parameters bs st r t s).current_step ∧
    (s.current_step < s.interpolation_steps →
      min s.last_value s.target_value ≤ (get_smoothed_value gexp s).1 ∧
      (get_smoothed_value gexp s).1 ≤ max s.last_value s.target_value) ∧
    (s.interpolation_steps ≤ s.current_step →
      (get_smoothed_value gexp s).1 = s.target_value) := by
  have hsmooth : 0 ≤ (get_smoothed_value gexp s).2.current_step ∧
      (get_smoothed_value gexp s).2.current_step ≤
        (get_smoothed_value gexp s).2.interpolation_steps := by
    rw [get_smoothed_snd]
    simp only
    split_ifs with hc
    · exact ⟨h0, h1⟩
    · constructor
      · rw [min_def]
        split_ifs <;> omega
      · exact min_le_right _ _
  refine ⟨?_, hsmooth, ?_, ?_, ?_, ?_, ?_⟩
  · obtain ⟨ha0, ha1, _⟩ := add_wind_reading_fields gexp x s
    rw [ha0, ha1]
    omega
  · have hnorm : (get_normalized_value gexp s).2 = (get_smoothed_value gexp s).2 := rfl
    rw [hnorm]
    exact hsmooth
  · cases hp : profileParams name with
    | none => rw [set_profile_unknown s name hp]; exact h0
    | some v =>
      obtain ⟨pb, ps, pr⟩ := v
      rw [set_profile_known s name pb ps pr hp]
      exact h0
  · rw [(set_custom_untouched bs st r t s).2.2.2.2.2]
    exact h0
  · intro hc
    exact get_smoothed_fst_between gexp s hc
  · intro hc
    exact get_smoothed_fst_terminal gexp s hc

/-- C2 counterexample: two calls of get_smoothed_value bring current_step
to 2, and set_custom_parameters then lowers interpolation_steps to 1, so
current_step exceeds interpolation_steps and the claimed invariant fails
for that operation. -/
theorem C2_counterexample :
    (let s2 := (get_smoothed_value gexpModel ((get_smoothed_value gexpModel
        (mkWindSmoother 10 20 2 "linear" (1/2))).2)).2
     let s3 := set_custom_parameters none (some 1) none none s2
     s3.current_step = 2 ∧ s3.interpolation_steps = 1 ∧
       ¬ s3.current_step ≤ s3.interpolation_steps) := by
  simp [mkWindSmoother, get_smoothed_value, set_custom_parameters, pyInt]

/-- C2 witness: the preserved invariant instantiated on a freshly
constructed linear smoother after one added sample. -/
theorem C2_witness :
    0 ≤ (add_wind_reading gexpModel 4 (mkWindSmoother 5 10 3 "linear" (1/2))).current_step ∧
    (add_wind_reading gexpModel 4 (mkWindSmoother 5 10 3 "linear" (1/2))).current_step ≤
      (add_wind_reading gexpModel 4 (mkWindSmoother 5 10 3 "linear" (1/2))).interpolation_steps :=
  (C2_step_invariant gexpModel (mkWindSmoother 5 10 3 "linear" (1/2)) 4
    none none none none "responsive"
    (by norm_num [mkWindSmoother]) (by norm_num [mkWindSmoother])).1

/-- C3, amended: add_wind_reading stores min of the sample and
max_wind_mph as the newest buffer entry; the stored sample never exceeds
max_wind_mph, and it is non-negative whenever the sample and the ceiling
are non-negative — a negative sample, however, is stored unclamped. -/
theorem C3_upper_clamp_only (gexp : ℚ → ℚ) (x : ℚ) (s : WindSmoother)
    (hm : 1 ≤ s.buffer_maxlen) :
    (add_wind_reading gexp x s).wind_buffer.getLast? = some (min x s.max_wind_mph) ∧
    min x s.max_wind_mph ≤ s.max_wind_mph ∧
    (0 ≤ x → 0 ≤ s.max_wind_mph → 0 ≤ min x s.max_wind_mph) := by
  refine ⟨?_, min_le_right x s.max_wind_mph, fun hx hM => le_min hx hM⟩
  have hbuf : (add_wind_reading gexp x s).wind_buffer =
      dequeAppend s.buffer_maxlen s.wind_buffer (min x s.max_wind_mph) := by
    unfold add_wind_reading
    simp only
    rw [get_smoothed_snd]
  rw [hbuf]
  exact dequeAppend_getLast hm s.wind_buffer (min x s.max_wind_mph)

/-- C3 counterexample: a negative sample is stored without lower
clamping, so the buffer holds a value below zero. -/
theorem C3_counterexample :
    (add_wind_reading gexpModel (-5) (mkWindSmoother 10 20 150 "linear" (1/2))).wind_buffer
      = [-5] ∧ ((-5:ℚ) < 0) := by
  refine ⟨?_, by norm_num⟩
  simp [mkWindSmoother, add_wind_reading, get_smoothed_value, dequeAppend, listMean,
    pyInt, gexpModel] <;> norm_num

/-- C3 witness: the amended storing property instantiated on a concrete
in-range sample. -/
theorem C3_witness :
    (add_wind_reading gexpModel 7 (mkWindSmoother 3 10 150 "linear" (1/2))).wind_buffer.getLast?
       = some (min 7 10) ∧
    min (7:ℚ) 10 ≤ 10 ∧
    ((0:ℚ) ≤ 7 → (0:ℚ) ≤ 10 → 0 ≤ min (7:ℚ) 10) :=
  C3_upper_clamp_only gexpModel 7 (mkWindSmoother 3 10 150 "linear" (1/2))
    (by norm_num [mkWindSmoother])

/-- C4: immediately after add_wind_reading, the first call of
get_smoothed_value returns exactly last_value (the progress quotient is
zero and every shaping curve maps zero to zero), and the call made after
exactly interpolation_steps further calls returns exactly target_value,
for every smoothing type and any response_speed within the configured
interval. -/
theorem C4_transition_endpoints (gexp : ℚ → ℚ) (hg0 : gexp 0 = 1) (x : ℚ)
    (s : WindSmoother) (hst : 1 ≤ s.interpolation_steps)
    (hr1 : 1/10 ≤ s.response_speed) (hr2 : s.response_speed ≤ 1) :
    (get_smoothed_value gexp (add_wind_reading gexp x s)).1 =
      (add_wind_reading gexp x s).last_value ∧
    (get_smoothed_value gexp
        (stepN gexp s.interpolation_steps.toNat (add_wind_reading gexp x s))).1 =
      (add_wind_reading gexp x s).target_value := by
  obtain ⟨ha0, ha1, _, _, _⟩ := add_wind_reading_fields gexp x s
  constructor
  · exact get_smoothed_first_call gexp hg0 ha0 (by rw [ha1]; exact hst)
  · have htn : ((s.interpolation_steps.toNat : ℤ)) = s.interpolation_steps :=
      Int.toNat_of_nonneg (by omega)
    have hcur := stepN_current gexp s.interpolation_steps.toNat
      (add_wind_reading gexp x s) ha0 (by rw [ha1]; omega)
    have hfields := stepN_fields gexp s.interpolation_steps.toNat
      (add_wind_reading gexp x s)
    have hc : (stepN gexp s.interpolation_steps.toNat
          (add_wind_reading gexp x s)).interpolation_steps ≤
        (stepN gexp s.interpolation_steps.toNat
          (add_wind_reading gexp x s)).current_step := by
      rw [hcur, hfields.2, ha1, htn, min_self]
    rw [get_smoothed_fst_terminal gexp _ hc, hfields.1]

/-- C4 witness: the endpoint equalities instantiated on a concrete linear
smoother with two interpolation steps. -/
theorem C4_witness :
    (get_smoothed_value gexpModel (add_wind_reading gexpModel 6
        (mkWindSmoother 3 10 2 "linear" (1/2)))).1 =
      (add_wind_reading gexpModel 6 (mkWindSmoother 3 10 2 "linear" (1/2))).last_value ∧
    (get_smoothed_value gexpModel (stepN gexpModel
        (mkWindSmoother 3 10 2 "linear" (1/2)).interpolation_steps.toNat
        (add_wind_reading gexpModel 6 (mkWindSmoother 3 10 2 "linear" (1/2))))).1 =
      (add_wind_reading gexpModel 6 (mkWindSmoother 3 10 2 "linear" (1/2))).target_value :=
  C4_transition_endpoints gexpModel gexpModel_zero 6 (mkWindSmoother 3 10 2 "linear" (1/2))
    (by norm_num [mkWindSmoother]) (by norm_num [mkWindSmoother])
    (by norm_num [mkWindSmoother])

/-- C5, amended: the constructor performs no validation of max_wind_mph:
every value, including zero and negative ones, is accepted and yields a
fully usable state carrying that ceiling; the division by zero then
surfaces inside get_normalized_value, which fails (ZeroDivisionError,
modelled as none) exactly when max_wind_mph is zero, rather than the
configuration being rejected at construction time. -/
theorem C5_no_constructor_validation (bufsz : ℕ) (maxw : ℚ) (steps : ℤ)
    (ty : String) (resp : ℚ) (gexp : ℚ → ℚ) (s : WindSmoother) :
    (mkWindSmoother bufsz maxw steps ty resp).max_wind_mph = maxw ∧
    ((get_normalized_value gexp s).1 = none ↔ s.max_wind_mph = 0) := by
  refine ⟨rfl, ?_⟩
  unfold get_normalized_value
  simp only
  split_ifs with h
  · simp [h]
  · simp [h]

/-- C5 counterexample: constructing with max_wind_mph equal to zero is
accepted and produces a state, contradicting rejection at the call site;
the error shows up only later as a division by zero inside
get_normalized_value. -/
theorem C5_counterexample :
    (mkWindSmoother 10 0 150 "linear" (1/2)).max_wind_mph = 0 ∧
    (get_normalized_value gexpModel (mkWindSmoother 10 0 150 "linear" (1/2))).1 = none := by
  refine ⟨rfl, ?_⟩
  simp [mkWindSmoother, get_normalized_value]

/-- C6, amended: a known-name profile switch immediately overwrites
buffer_size, interpolation_steps and response_speed, trims the buffer
from the front (discarding the oldest samples and preserving the most
recent ones in order) down to the new buffer_size, and leaves last_value,
target_value and current_step untouched; set_custom_parameters overwrites
fields without any trimming; but neither operation changes the deque
capacity fixed at construction, so the buffer can never again grow beyond
the construction-time buffer_size even when the new buffer_size is
larger. -/
theorem C6_profile_switch_effects (s : WindSmoother) (name : String) (bs st : ℤ)
    (rs : ℚ) (h : profileParams name = some (bs, st, rs)) :
    ((set_smoothing_profile name s).1.buffer_size = bs ∧
     (set_smoothing_profile name s).1.interpolation_steps = st ∧
     (set_smoothing_profile name s).1.response_speed = rs ∧
     (set_smoothing_profile name s).1.buffer_maxlen = s.buffer_maxlen ∧
     (set_smoothing_profile name s).1.wind_buffer =
       s.wind_buffer.drop (((s.wind_buffer.length : ℤ) - bs).toNat) ∧
     (set_smoothing_profile name s).1.last_value = s.last_value ∧
     (set_smoothing_profile name s).1.target_value = s.target_value ∧
     (set_smoothing_profile name s).1.current_step = s.current_step) ∧
    (∀ bs2 st2 : Option ℤ, ∀ rs2 : Option ℚ, ∀ ty2 : Option String,
      (set_custom_parameters bs2 st2 rs2 ty2 s).wind_buffer = s.wind_buffer ∧
      (set_custom_parameters bs2 st2 rs2 ty2 s).buffer_maxlen = s.buffer_maxlen ∧
      (set_custom_parameters bs2 st2 rs2 ty2 s).last_value = s.last_value ∧
      (set_custom_parameters bs2 st2 rs2 ty2 s).target_value = s.target_value ∧
      (set_custom_parameters bs2 st2 rs2 ty2 s).current_step = s.current_step) := by
  constructor
  · rw [set_profile_known s name bs st rs h]
    exact ⟨rfl, rfl, rfl, rfl, rfl, rfl, rfl, rfl⟩
  · intro bs2 st2 rs2 ty2
    obtain ⟨h1, _, h3, h4, h5, h6⟩ := set_custom_untouched bs2 st2 rs2 ty2 s
    exact ⟨h1, h3, h4, h5, h6⟩

/-- C6 counterexample: a smoother built with buffer capacity 2 is switched
to the responsive profile whose buffer_size is 3, yet after three added
samples the buffer still holds only the 2 most recent of them, because the
deque maxlen from construction is never updated — the effective capacity
is not the new buffer_size. -/
theorem C6_counterexample :
    (let s4 := add_wind_reading gexpModel 3 (add_wind_reading gexpModel 2
        (add_wind_reading gexpModel 1
          ((set_smoothing_profile "responsive"
            (mkWindSmoother 2 20 150 "linear" (1/2))).1)))
     s4.buffer_size = 3 ∧ s4.wind_buffer = [2, 3] ∧ s4.wind_buffer.length = 2 ∧
       (2:ℤ) ≠ 3) := by
  refine ⟨?_, ?_, ?_, by norm_num⟩ <;>
    simp [mkWindSmoother, set_smoothing_profile, profileParams, trimFront,
      add_wind_reading, get_smoothed_value, dequeAppend, listMean, pyInt,
      gexpModel] <;> norm_num

/-- C6 witness: the switch effects instantiated for the responsive
profile on a freshly constructed smoother. -/
theorem C6_witness :
    (set_smoothing_profile "responsive" (mkWindSmoother 2 20 150 "linear" (1/2))).1.buffer_size
        = 3 ∧
    (set_smoothing_profile "responsive"
        (mkWindSmoother 2 20 150 "linear" (1/2))).1.interpolation_steps = 50 ∧
    (set_smoothing_profile "responsive"
        (mkWindSmoother 2 20 150 "linear" (1/2))).1.response_speed = 8/10 ∧
    (set_smoothing_profile "responsive" (mkWindSmoother 2 20 150 "linear" (1/2))).1.buffer_maxlen
        = (mkWindSmoother 2 20 150 "linear" (1/2)).buffer_maxlen ∧
    (set_smoothing_profile "responsive" (mkWindSmoother 2 20 150 "linear" (1/2))).1.wind_buffer
        = (mkWindSmoother 2 20 150 "linear" (1/2)).wind_buffer.drop
            ((((mkWindSmoother 2 20 150 "linear" (1/2)).wind_buffer.length : ℤ) - 3).toNat) ∧
    (set_smoothing_profile "responsive" (mkWindSmoother 2 20 150 "linear" (1/2))).1.last_value
        = (mkWindSmoother 2 20 150 "linear" (1/2)).last_value ∧
    (set_smoothing_profile "responsive" (mkWindSmoother 2 20 150 "linear" (1/2))).1.target_value
        = (mkWindSmoother 2 20 150 "linear" (1/2)).target_value ∧
    (set_smoothing_profile "responsive" (mkWindSmoother 2 20 150 "linear" (1/2))).1.current_step
        = (mkWindSmoother 2 20 150 "linear" (1/2)).current_step :=
  (C6_profile_switch_effects (mkWindSmoother 2 20 150 "linear" (1/2)) "responsive"
    3 50 (8/10) rfl).1

/-- C7: set_smoothing_profile succeeds, without raising, for each of the
four named profiles, and for every other name it reports failure while
returning the state completely unchanged — no silent defaulting. -/
theorem C7_unknown_profile_rejected (s : WindSmoother) (name : String) :
    ((set_smoothing_profile "responsive" s).2 = true ∧
     (set_smoothing_profile "balanced" s).2 = true ∧
     (set_smoothing_profile "smooth" s).2 = true ∧
     (set_smoothing_profile "ambient" s).2 = true) ∧
    (name ≠ "responsive" → name ≠ "balanced" → name ≠ "smooth" → name ≠ "ambient" →
      set_smoothing_profile name s = (s, false)) := by
  constructor
  · exact ⟨rfl, rfl, rfl, rfl⟩
  · intro h1 h2 h3 h4
    have hp : profileParams name = none := by
      unfold profileParams
      split <;> simp_all
    exact set_profile_unknown s name hp

/-- C7 witness: an unrecognised profile name leaves a concrete smoother
unchanged and reports failure. -/
theorem C7_witness :
    set_smoothing_profile "breezy" (mkWindSmoother 10 20 150 "linear" (1/2)) =
      (mkWindSmoother 10 20 150 "linear" (1/2), false) :=
  (C7_unknown_profile_rejected (mkWindSmoother 10 20 150 "linear" (1/2)) "breezy").2
    (by decide) (by decide) (by decide) (by decide)

theorem ramp_update_active (now t0 : ℚ) (s : RampState) (hr : s.is_ramping = true)
    (hst : s.ramp_start_time = some t0) (ht0 : t0 ≠ 0) :
    ramp_update now s =
      (let progress := min ((now - t0) / s.ramp_duration) 1
       let ease : ℚ := if progress < 1/2 then 2 * progress * progress
         else 1 - 2 * (1 - progress) * (1 - progress)
       if 1 ≤ progress then
         { s with current_value := s.target_value, is_ramping := false }
       else { s with current_value :=
         s.start_value + (s.target_value - s.start_value) * ease }) := by
  unfold ramp_update
  rw [hst]
  simp [pyTruthyTime, hr, ht0]

/-- C8: once set_target with a change above the threshold has started a
ramp, the eased value at the start instant equals start_value; at half
the duration the eased progress is exactly one half, so the value is the
exact midpoint of start and target, strictly between them; and at or
beyond the full duration the value equals the target exactly and the
ramping flag is cleared. -/
theorem C8_ramp_trajectory (s : RampState) (v t0 : ℚ)
    (hth : 1/10 < |v - s.target_value|) (hs : s.current_value ≠ v)
    (hd : 0 < s.ramp_duration) (ht0 : t0 ≠ 0) :
    ((ramp_update t0 (set_target t0 v s)).current_value = s.current_value) ∧
    ((ramp_update (t0 + s.ramp_duration / 2) (set_target t0 v s)).current_value =
        (s.current_value + v) / 2) ∧
    (min s.current_value v <
        (ramp_update (t0 + s.ramp_duration / 2) (set_target t0 v s)).current_value ∧
     (ramp_update (t0 + s.ramp_duration / 2) (set_target t0 v s)).current_value <
        max s.current_value v) ∧
    (∀ now, t0 + s.ramp_duration ≤ now →
      (ramp_update now (set_target t0 v s)).current_value = v ∧
      (ramp_update now (set_target t0 v s)).is_ramping = false) := by
  have hset : set_target t0 v s =
      { s with
          start_value := s.current_value
          target_value := v
          ramp_start_time := some t0
          is_ramping := true } := by
    unfold set_target
    rw [if_pos hth]
  rw [hset]
  have hmid : ((t0 + s.ramp_duration / 2 - t0) / s.ramp_duration) = 1/2 := by
    field_simp
    ring
  have h2 : (ramp_update (t0 + s.ramp_duration / 2)
      { s with
          start_value := s.current_value
          target_value := v
          ramp_start_time := some t0
          is_ramping := true }).current_value =
      (s.current_value + v) / 2 := by
    rw [ramp_update_active _ t0 _ rfl rfl ht0]
    simp only [hmid]
    norm_num
    ring
  refine ⟨?_, h2, ?_, ?_⟩
  · rw [ramp_update_active _ t0 _ rfl rfl ht0]
    norm_num
  · rw [h2]
    rcases lt_or_gt_of_ne hs with h | h
    · rw [min_eq_left h.le, max_eq_right h.le]
      constructor <;> linarith
    · rw [min_eq_right h.le, max_eq_left h.le]
      constructor <;> linarith
  · intro now hnow
    rw [ramp_update_active _ t0 _ rfl rfl ht0]
    have hp : (now - t0) / s.ramp_duration ≥ 1 := by
      rw [ge_iff_le, le_div_iff₀ hd]
      linarith
    simp only [min_eq_right hp]
    norm_num

/-- C8 witness: the trajectory of a fresh ramp controller driven to the
target 5 over a duration of 8, sampled at the start, the midpoint and the
end of the ramp window. -/
theorem C8_witness :
    ((ramp_update 1 (set_target 1 5 (mkRampController 8 (1/10)))).current_value =
        (mkRampController 8 (1/10)).current_value) ∧
    ((ramp_update (1 + (mkRampController 8 (1/10)).ramp_duration / 2)
        (set_target 1 5 (mkRampController 8 (1/10)))).current_value =
        ((mkRampController 8 (1/10)).current_value + 5) / 2) ∧
    (min (mkRampController 8 (1/10)).current_value 5 <
        (ramp_update (1 + (mkRampController 8 (1/10)).ramp_duration / 2)
          (set_target 1 5 (mkRampController 8 (1/10)))).current_value ∧
     (ramp_update (1 + (mkRampController 8 (1/10)).ramp_duration / 2)
        (set_target 1 5 (mkRampController 8 (1/10)))).current_value <
        max (mkRampController 8 (1/10)).current_value 5) ∧
    (∀ now, 1 + (mkRampController 8 (1/10)).ramp_duration ≤ now →
      (ramp_update now (set_target 1 5 (mkRampController 8 (1/10)))).current_value = 5 ∧
      (ramp_update now (set_target 1 5 (mkRampController 8 (1/10)))).is_ramping = false) :=
  C8_ramp_trajectory (mkRampController 8 (1/10)) 5 1
    (by norm_num [mkRampController, abs]) (by norm_num [mkRampController])
    (by norm_num [mkRampController]) (by norm_num)

/-- C9: a decoder line is accepted exactly when it is a JSON object whose
model field equals the expected sensor model string; malformed lines are
dropped without producing anything; and an accepted reading carries the
wind speed converted from meters per second to miles per hour by the
factor 2.23694, with direction, temperature and humidity taken verbatim,
defaulting to zero when absent. -/
theorem C9_parse_filter (line : DecoderLine) :
    ((parseLine line).isSome ↔
      ∃ o, line = DecoderLine.obj o ∧ o.model = some expectedModel) ∧
    (∀ o r, line = DecoderLine.obj o → parseLine line = some r →
      r.wind_speed = o.wind_avg_m_s.getD 0 * (223694/100000) ∧
      r.wind_direction = o.wind_dir_deg.getD 0 ∧
      r.temperature = o.temperature_C.getD 0 ∧
      r.humidity = o.humidity.getD 0) ∧
    parseLine DecoderLine.malformed = none := by
  refine ⟨?_, ?_, rfl⟩
  · cases line with
    | malformed => simp [parseLine]
    | obj o =>
      by_cases h : o.model = some expectedModel
      · simp [parseLine, h]
      · simp [parseLine, h]
  · intro o r hline hr
    subst hline
    simp only [parseLine] at hr
    split_ifs at hr with h
    all_goals first
      | (have hr2 := Option.some.inj hr
         subst hr2
         exact ⟨rfl, rfl, rfl, rfl⟩)
      | simp at hr

/-- C9 witness: a concrete matching object line is accepted. -/
theorem C9_witness :
    (parseLine (DecoderLine.obj
      { model := some expectedModel
        wind_avg_m_s := some 10
        wind_dir_deg := some 180
        temperature_C := none
        humidity := some 40 })).isSome :=
  ((C9_parse_filter (DecoderLine.obj
      { model := some expectedModel
        wind_avg_m_s := some 10
        wind_dir_deg := some 180
        temperature_C := none
        humidity := some 40 })).1).mpr ⟨_, rfl, rfl⟩

/-- C10: a set_target request whose distance to the stored target is at
most the threshold of one tenth leaves the entire ramp state unchanged;
in particular target_value itself is not updated, so later requests are
compared against the stale stored target. -/
theorem C10_subthreshold_noop (s : RampState) (v now : ℚ)
    (h : |v - s.target_value| ≤ 1/10) : set_target now v s = s := by
  unfold set_target
  rw [if_neg (not_lt.mpr h)]

/-- C10 witness: a request of one twentieth against a stored target of
zero is below the threshold and leaves a fresh controller untouched. -/
theorem C10_witness :
    set_target 1 (1/20) (mkRampController 8 (1/10)) = mkRampController 8 (1/10) :=
  C10_subthreshold_noop (mkRampController 8 (1/10)) (1/20) 1
    (by norm_num [mkRampController, abs])

end LivingSynth
